import Mathlib

/-!
Shallow embedding of the sentiment/urgency classifier of the feedback
aggregator (`src/ai/analyzer.ts`): the model-backed `analyzeFeedback`
pipeline (fence stripping, brace extraction, JSON parsing, per-field
normalization), the keyword `fallbackAnalysis` heuristic, and the
sequential `batchAnalyzeFeedback` runner.

JavaScript strings are modelled as Lean `String`/`List Char`; number
values flowing through JSON and normalization are modelled as `Rat`;
`NaN` results of `parseInt`/`parseFloat` are modelled as `none`.
-/

namespace Analyzer

/-- The three sentiment values of `AnalysisResult.sentiment`. -/
inductive Sentiment where
  | positive
  | negative
  | neutral
deriving DecidableEq, Repr

/-- JSON values as produced by `JSON.parse`.  Object fields keep source
order; duplicate keys are resolved by `jsGet` (last wins, as in JS). -/
inductive Json where
  | null
  | bool (b : Bool)
  | num (q : Rat)
  | str (s : String)
  | arr (elems : List Json)
  | obj (fields : List (String × Json))

/-- The `AnalysisResult` record of `analyzer.ts`.  `urgency` is an `Int`
(the code always produces an integer), `confidence` a `Rat`; `reasoning`
carries whatever JSON value the parsed object held (`none` = absent). -/
structure AnalysisResult where
  sentiment : Sentiment
  urgency : Int
  confidence : Rat
  reasoning : Option Json

/-! ### String helpers (JS `toLowerCase`, `includes`, `trim`) -/

/-- JS `String.prototype.toLowerCase`, per-character (ASCII-faithful). -/
def toLowerStr (s : String) : String := ⟨s.data.map Char.toLower⟩

/-- Substring containment on char lists: JS `String.prototype.includes`. -/
def listContainsSub (pat : List Char) : List Char → Bool
  | [] => pat.isEmpty
  | c :: t => pat.isPrefixOf (c :: t) || listContainsSub pat t

/-- JS `s.includes(pat)`. -/
def containsSub (s pat : String) : Bool := listContainsSub pat.data s.data

/-- Whitespace recognised by JS `trim` (the forms that occur here). -/
def isWs (c : Char) : Bool := c = ' ' || c = '\t' || c = '\n' || c = '\r'

/-- JS `String.prototype.trim`. -/
def trimList (s : List Char) : List Char :=
  ((s.dropWhile isWs).reverse.dropWhile isWs).reverse

/-! ### Fallback heuristic (`fallbackAnalysis`) -/

/-- The positive-signal lexicon of `fallbackAnalysis`. -/
def positiveWords : List String :=
  ["great", "love", "excellent", "amazing", "wonderful", "fantastic",
   "good", "helpful", "easy", "smooth"]

/-- The negative-signal lexicon of `fallbackAnalysis`. -/
def negativeWords : List String :=
  ["bug", "broken", "crash", "error", "fail", "slow", "bad", "terrible",
   "worst", "issue"]

/-- The urgent-signal lexicon of `fallbackAnalysis`. -/
def urgentWords : List String :=
  ["urgent", "critical", "production", "down", "blocker", "immediately"]

/-- Embeds `positiveWords.filter((word) => lowerContent.includes(word)).length`. -/
def positiveCount (content : String) : Nat :=
  (positiveWords.filter (fun w => containsSub (toLowerStr content) w)).length

/-- Embeds `negativeWords.filter((word) => lowerContent.includes(word)).length`. -/
def negativeCount (content : String) : Nat :=
  (negativeWords.filter (fun w => containsSub (toLowerStr content) w)).length

/-- Embeds `urgentWords.filter((word) => lowerContent.includes(word)).length`. -/
def urgentCount (content : String) : Nat :=
  (urgentWords.filter (fun w => containsSub (toLowerStr content) w)).length

/-- The fixed reasoning marker of the fallback path. -/
def fallbackReasoning : Json := .str "Fallback rule-based analysis"

/-- Embedding of `fallbackAnalysis` of `analyzer.ts`: keyword-count sentiment, the
urgency decision chain, fixed confidence 0.5 and the marker reasoning. -/
def fallbackAnalysis (content : String) : AnalysisResult :=
  let pc := positiveCount content
  let nc := negativeCount content
  let uc := urgentCount content
  { sentiment :=
      if pc > nc then .positive
      else if nc > pc then .negative
      else .neutral
    urgency :=
      if uc > 0 then 5
      else if nc > 2 then 4
      else if nc > 0 then 3
      else if pc > 0 then 1
      else 3
    confidence := mkRat 1 2
    reasoning := some fallbackReasoning }

example : (fallbackAnalysis "This is broken and needs urgent attention!").urgency = 5 := by
  decide

example : (fallbackAnalysis "The weather today.").sentiment = .neutral := by
  decide

/-! ### Response text extraction (trim, fence stripping, brace regex) -/

/-- One pass of `jsonStr.replace(/```json\n?/g, '')`: every occurrence of
the fence token and an optional following newline is deleted, scanning
left to right as the JS regex engine does. -/
def stripJsonFence : List Char → List Char
  | '`' :: '`' :: '`' :: 'j' :: 's' :: 'o' :: 'n' :: '\n' :: rest => stripJsonFence rest
  | '`' :: '`' :: '`' :: 'j' :: 's' :: 'o' :: 'n' :: rest => stripJsonFence rest
  | c :: t => c :: stripJsonFence t
  | [] => []

/-- One pass of `.replace(/```\n?/g, '')` (run after `stripJsonFence`). -/
def stripFence3 : List Char → List Char
  | '`' :: '`' :: '`' :: '\n' :: rest => stripFence3 rest
  | '`' :: '`' :: '`' :: rest => stripFence3 rest
  | c :: t => c :: stripFence3 t
  | [] => []

/-- The tail after the first `{` of the text, if any. -/
def afterFirstBrace : List Char → Option (List Char)
  | [] => none
  | c :: t => if c = '{' then some t else afterFirstBrace t

/-- The prefix of the text up to and including its last `}`, if any. -/
def upToLastClose : List Char → Option (List Char)
  | [] => none
  | c :: t =>
    match upToLastClose t with
    | some r => some (c :: r)
    | none => if c = '}' then some [c] else none

/-- Embeds `jsonStr.match(/\{[\s\S]*\}/)`: the greedy regex matches from the
first `{` of the text to the last `}` after it, or fails. -/
def braceExtract (s : List Char) : Option (List Char) :=
  (afterFirstBrace s).bind fun t =>
    (upToLastClose t).map fun r => '{' :: r

/-- Lines 263-272 of the analyzer: trim the raw response, strip the two
fence patterns, then apply the greedy brace regex. -/
def extractJson (raw : String) : Option String :=
  let s := trimList raw.data
  let s := stripFence3 (stripJsonFence s)
  (braceExtract s).map fun l => ⟨l⟩

/-! ### `JSON.parse`

A fuel-indexed recursive-descent parser for the JSON grammar (values,
objects, arrays, strings with the standard escapes, numbers with
fraction and exponent, the four whitespace characters).  This models the
built-in `JSON.parse` used at line 274; `jsonParse` fails (returns
`none`) exactly where `JSON.parse` would throw a `SyntaxError`, modulo
two simplifications that no theorem below relies on: raw control
characters inside string literals are accepted, and `\u` surrogate pairs
are not combined. -/

/-- Decimal digits to a natural number. -/
def digitsToNat (ds : List Char) : Nat :=
  ds.foldl (fun a c => a * 10 + (c.toNat - 48)) 0

/-- Single-character JSON string escapes. -/
def escChar : Char → Option Char
  | '"' => some '"'
  | '\\' => some '\\'
  | '/' => some '/'
  | 'b' => some (Char.ofNat 8)
  | 'f' => some (Char.ofNat 12)
  | 'n' => some '\n'
  | 'r' => some '\r'
  | 't' => some '\t'
  | _ => none

/-- Hexadecimal digit value, for `\uXXXX` escapes. -/
def hexVal (c : Char) : Option Nat :=
  if c.isDigit then some (c.toNat - 48)
  else if 'a' ≤ c ∧ c ≤ 'f' then some (c.toNat - 87)
  else if 'A' ≤ c ∧ c ≤ 'F' then some (c.toNat - 55)
  else none

/-- Body of a JSON string literal, after the opening quote; returns the
decoded characters and the text after the closing quote. -/
def parseStringBody : List Char → Option (List Char × List Char)
  | [] => none
  | '"' :: r => some ([], r)
  | '\\' :: 'u' :: a :: b :: c :: d :: r =>
    match hexVal a, hexVal b, hexVal c, hexVal d with
    | some ha, some hb, some hc, some hd =>
      (parseStringBody r).map fun p =>
        (Char.ofNat (((ha * 16 + hb) * 16 + hc) * 16 + hd) :: p.1, p.2)
    | _, _, _, _ => none
  | '\\' :: e :: r =>
    match escChar e with
    | some c => (parseStringBody r).map fun p => (c :: p.1, p.2)
    | none => none
  | c :: r => (parseStringBody r).map fun p => (c :: p.1, p.2)

/-- Exponent suffix of a JSON number (after the `e`/`E`), applied to a
numerator/denominator pair. -/
def expTail (num : Int) (den : Nat) (t : List Char) :
    Option ((Int × Nat) × List Char) :=
  let (neg, t1) :=
    match t with
    | '+' :: r => (false, r)
    | '-' :: r => (true, r)
    | r => (false, r)
  match t1.span Char.isDigit with
  | ([], _) => none
  | (es, t2) =>
    let k := digitsToNat es
    some (if neg then (num, den * 10 ^ k) else (num * (10 : Int) ^ k, den), t2)

/-- Optional exponent part of a JSON number. -/
def applyExp (num : Int) (den : Nat) (s : List Char) :
    Option ((Int × Nat) × List Char) :=
  match s with
  | 'e' :: t => expTail num den t
  | 'E' :: t => expTail num den t
  | _ => some ((num, den), s)

/-- A JSON number literal (sign, integer part without redundant leading
zero, optional fraction, optional exponent).  The value is assembled as
a single `mkRat` over integer arithmetic. -/
def parseNumber (s : List Char) : Option (Json × List Char) :=
  let (neg, s1) :=
    match s with
    | '-' :: t => (true, t)
    | t => (false, t)
  match s1.span Char.isDigit with
  | ([], _) => none
  | (d0 :: drest, s2) =>
    if d0 = '0' && !drest.isEmpty then none
    else
      let intDigits : Nat := digitsToNat (d0 :: drest)
      let fracStep : Option ((Int × Nat) × List Char) :=
        match s2 with
        | '.' :: t =>
          match t.span Char.isDigit with
          | ([], _) => none
          | (fs, t2) =>
            some (((intDigits * 10 ^ fs.length + digitsToNat fs : Nat), 10 ^ fs.length), t2)
        | _ => some (((intDigits : Int), 1), s2)
      match fracStep with
      | none => none
      | some ((num, den), s3) =>
        match applyExp num den s3 with
        | none => none
        | some ((num2, den2), s4) =>
          some (.num (mkRat (if neg then -num2 else num2) den2), s4)

/-- JSON value parser.  Arrays and objects parse their remaining members
by re-entering the parser on a re-bracketed tail (guarding against the
trailing commas JSON rejects), so the recursion is structural in the
fuel and kernel-reducible. -/
def parseValue : Nat → List Char → Option (Json × List Char)
  | 0, _ => none
  | n + 1, s =>
    match s.dropWhile isWs with
    | 'n' :: 'u' :: 'l' :: 'l' :: r => some (.null, r)
    | 't' :: 'r' :: 'u' :: 'e' :: r => some (.bool true, r)
    | 'f' :: 'a' :: 'l' :: 's' :: 'e' :: r => some (.bool false, r)
    | '"' :: r => (parseStringBody r).map fun p => (.str ⟨p.1⟩, p.2)
    | '[' :: r =>
      match r.dropWhile isWs with
      | ']' :: r2 => some (.arr [], r2)
      | r2 =>
        match parseValue n r2 with
        | none => none
        | some (v, r3) =>
          match r3.dropWhile isWs with
          | ']' :: r4 => some (.arr [v], r4)
          | ',' :: r4 =>
            match r4.dropWhile isWs with
            | ']' :: _ => none
            | r5 =>
              match parseValue n ('[' :: r5) with
              | some (.arr vs, r6) => some (.arr (v :: vs), r6)
              | _ => none
          | _ => none
    | '{' :: r =>
      match r.dropWhile isWs with
      | '}' :: r2 => some (.obj [], r2)
      | '"' :: r3 =>
        match parseStringBody r3 with
        | none => none
        | some (k, r4) =>
          match r4.dropWhile isWs with
          | ':' :: r5 =>
            match parseValue n r5 with
            | none => none
            | some (v, r6) =>
              match r6.dropWhile isWs with
              | '}' :: r7 => some (.obj [(⟨k⟩, v)], r7)
              | ',' :: r7 =>
                match r7.dropWhile isWs with
                | '}' :: _ => none
                | r8 =>
                  match parseValue n ('{' :: r8) with
                  | some (.obj fs, r9) => some (.obj ((⟨k⟩, v) :: fs), r9)
                  | _ => none
              | _ => none
          | _ => none
      | _ => none
    | c :: r => if c = '-' || c.isDigit then parseNumber (c :: r) else none
    | [] => none

/-- Embeds `JSON.parse`: parse one value and require only whitespace after it. -/
def jsonParse (s : String) : Option Json :=
  match parseValue (2 * s.length + 16) s.data with
  | some (j, r) => if r.dropWhile isWs = [] then some j else none
  | none => none

example : jsonParse "\x7b\"a\": 1, \"b\": [true, null]\x7d" =
    some (.obj [("a", .num 1), ("b", .arr [.bool true, .null])]) := by rfl

example : jsonParse "\x7b\"a\": 1\x7d trailing\x7d" = none := by rfl

/-! ### Field normalization and `analyzeFeedback` -/

/-- JS property access `analysis.key` on the parsed value: `none` models
`undefined` (non-object receiver or absent key); a duplicated key yields
its last value, as in `JSON.parse`. -/
def jsGet (j : Json) (key : String) : Option Json :=
  match j with
  | .obj fields => fields.foldl (fun acc p => if p.1 == key then some p.2 else acc) none
  | _ => none

/-- Embedding of `normalizeSentiment` (lines 292-297), defined on strings: lower-case,
then substring containment checks.  Calling it on a non-string is a
`TypeError`, modelled at the use site in `modelNormalize`. -/
def normalizeSentiment (sentiment : String) : Sentiment :=
  let s := toLowerStr sentiment
  if containsSub s "positive" then .positive
  else if containsSub s "negative" then .negative
  else .neutral

/-- Truncation toward zero, the value of JS `parseInt` on a (plain
decimal) number argument. -/
def ratTrunc (q : Rat) : Int := if q < 0 then -((-q).floor) else q.floor

/-- JS `parseInt` on a string: skip leading whitespace, optional sign,
then a run of decimal digits; `none` models `NaN`.  (The hexadecimal
`0x` prefix form is not modelled; no theorem feeds one in.) -/
def parseIntStr (s : String) : Option Int :=
  let t := s.data.dropWhile isWs
  let (neg, t1) :=
    match t with
    | '-' :: r => (true, r)
    | '+' :: r => (false, r)
    | r => (false, r)
  match t1.span Char.isDigit with
  | ([], _) => none
  | (ds, _) => some ((if neg then -1 else 1) * (digitsToNat ds : Int))

/-- JS `parseFloat` on a string: skip leading whitespace, optional sign,
decimal digits with optional fraction, optional well-formed exponent;
`none` models `NaN`. -/
def parseFloatStr (s : String) : Option Rat :=
  let t := s.data.dropWhile isWs
  let (neg, t1) :=
    match t with
    | '-' :: r => (true, r)
    | '+' :: r => (false, r)
    | r => (false, r)
  let (ds, t2) := t1.span Char.isDigit
  let fracStep : Option ((Int × Nat) × List Char) :=
    match t2 with
    | '.' :: u =>
      match u.span Char.isDigit with
      | ([], _) => if ds.isEmpty then none else some (((digitsToNat ds : Int), 1), u)
      | (fs, u2) =>
        if ds.isEmpty && fs.isEmpty then none
        else some (((digitsToNat ds * 10 ^ fs.length + digitsToNat fs : Nat), 10 ^ fs.length), u2)
    | _ => if ds.isEmpty then none else some (((digitsToNat ds : Int), 1), t2)
  match fracStep with
  | none => none
  | some ((num, den), rest) =>
    let (num2, den2) :=
      match applyExp num den rest with
      | some ((n2, d2), _) => (n2, d2)
      | none => (num, den)
    some (mkRat (if neg then -num2 else num2) den2)

/-- Embeds `parseInt(analysis.urgency)` where the field value is any JSON value
or absent: numbers truncate toward zero, strings parse a leading
integer, everything else (absent, null, booleans, objects) is `NaN`.
(Arrays, which JS would first stringify, are approximated as `NaN`; no
theorem feeds one in.) -/
def jsParseInt : Option Json → Option Int
  | some (.num q) => some (ratTrunc q)
  | some (.str s) => parseIntStr s
  | _ => none

/-- Embeds `parseFloat(analysis.confidence)` on the field value, same
conventions as `jsParseInt`. -/
def jsParseFloat : Option Json → Option Rat
  | some (.num q) => some q
  | some (.str s) => parseFloatStr s
  | _ => none

/-- Embeds `Math.min(5, Math.max(1, parseInt(analysis.urgency) || 3))` — note
`|| 3` also fires on the falsy integer 0. -/
def normUrgency (j : Json) : Int :=
  let x : Int :=
    match jsParseInt (jsGet j "urgency") with
    | none => 3
    | some v => if v = 0 then 3 else v
  min 5 (max 1 x)

/-- Embeds `parseFloat(analysis.confidence) || 0.7` — `|| 0.7` also fires on
the falsy number 0, and the value is not clamped. -/
def normConfidence (j : Json) : Rat :=
  match jsParseFloat (jsGet j "confidence") with
  | none => mkRat 7 10
  | some q => if q = 0 then mkRat 7 10 else q

/-- The result construction of lines 276-281, after `JSON.parse`
succeeded.  `normalizeSentiment(analysis.sentiment)` is evaluated first;
on a non-string (or absent) sentiment it throws a `TypeError`
(`undefined.toLowerCase`), so the whole construction aborts — modelled
by `none`, which the caller turns into the fallback. -/
def modelNormalize (j : Json) : Option AnalysisResult :=
  match jsGet j "sentiment" with
  | some (.str s) =>
    some
      { sentiment := normalizeSentiment s
        urgency := normUrgency j
        confidence := normConfidence j
        reasoning := jsGet j "reasoning" }
  | _ => none

/-- Behaviour of the model-call collaborator `ai.run` on one invocation:
it either throws or yields a raw response text. -/
inductive ModelOutcome where
  | throws
  | responds (text : String)

/-- The extracted-and-parsed JSON of a model outcome, if any. -/
def modelJson : ModelOutcome → Option Json
  | .throws => none
  | .responds raw => (extractJson raw).bind jsonParse

/-- Embedding of `analyzeFeedback` (lines 253-287): the model path runs extraction,
`JSON.parse` and normalization; the enclosing `try/catch` turns every
failure (thrown call, no brace match, parse error, `TypeError` in
`normalizeSentiment`) into `fallbackAnalysis(content)`. -/
def analyzeFeedback (content : String) (o : ModelOutcome) : AnalysisResult :=
  match o with
  | .throws => fallbackAnalysis content
  | .responds raw =>
    match extractJson raw with
    | none => fallbackAnalysis content
    | some s =>
      match jsonParse s with
      | none => fallbackAnalysis content
      | some j =>
        match modelNormalize j with
        | none => fallbackAnalysis content
        | some r => r

example :
    analyzeFeedback "x"
      (.responds "```json\n\x7b\"sentiment\":\"positive\",\"urgency\":1,\"confidence\":0.9\x7d\n```") =
    ⟨.positive, 1, mkRat 9 10, none⟩ := by rfl

example :
    analyzeFeedback "x"
      (.responds "\x7b\"sentiment\":\"VeryPositive!\",\"urgency\":99,\"confidence\":\"n/a\"\x7d") =
    ⟨.positive, 5, mkRat 7 10, none⟩ := by rfl

/-! ### `batchAnalyzeFeedback` -/

/-- Embeds `results.set(id, analysis)` on a JS `Map` kept as an insertion-order
association list: an existing key is updated in place, a new key is
appended. -/
def mapSet (m : List (Int × AnalysisResult)) (k : Int) (v : AnalysisResult) :
    List (Int × AnalysisResult) :=
  if m.any (fun p => p.1 == k) then
    m.map fun p => if p.1 == k then (k, v) else p
  else m ++ [(k, v)]

/-- The loop of `batchAnalyzeFeedback`: `i` is the loop counter, the
oracle gives the model outcome of the i-th `ai.run` call, and the second
component records every `onProgress(i + 1, total)` invocation in call
order. -/
def batchLoop (oracle : Nat → ModelOutcome) (total : Nat) :
    Nat → List (Int × String) → List (Int × AnalysisResult) →
    List (Int × AnalysisResult) × List (Nat × Nat)
  | _, [], acc => (acc, [])
  | i, item :: rest, acc =>
    let analysis := analyzeFeedback item.2 (oracle i)
    let acc2 := mapSet acc item.1 analysis
    let (m, ps) := batchLoop oracle total (i + 1) rest acc2
    (m, (i + 1, total) :: ps)

/-- Embedding of `batchAnalyzeFeedback` (lines 335-353): sequential fold over the
feedback list, starting from an empty map; returns the final map and
the trace of progress-callback invocations. -/
def batchAnalyzeFeedback (feedbackList : List (Int × String))
    (oracle : Nat → ModelOutcome) :
    List (Int × AnalysisResult) × List (Nat × Nat) :=
  batchLoop oracle feedbackList.length 0 feedbackList []

example :
    (batchAnalyzeFeedback [(1, "great"), (2, "bug")] (fun _ => .throws)).2 =
    [(1, 2), (2, 2)] := by rfl

/-! ### Helper lemmas -/

lemma fallbackAnalysis_urgency_cases (content : String) :
    (fallbackAnalysis content).urgency = 1 ∨ (fallbackAnalysis content).urgency = 3 ∨
    (fallbackAnalysis content).urgency = 4 ∨ (fallbackAnalysis content).urgency = 5 := by
  unfold fallbackAnalysis
  dsimp only
  split_ifs <;> simp

lemma fallbackAnalysis_confidence (content : String) :
    (fallbackAnalysis content).confidence = mkRat 1 2 := rfl

lemma fallbackAnalysis_reasoning (content : String) :
    (fallbackAnalysis content).reasoning = some fallbackReasoning := rfl

lemma normUrgency_bounds (j : Json) : 1 ≤ normUrgency j ∧ normUrgency j ≤ 5 := by
  unfold normUrgency
  dsimp only
  constructor
  · exact le_min (by norm_num) (le_max_left 1 _)
  · exact min_le_left 5 _

lemma modelNormalize_eq_some {j : Json} {r : AnalysisResult}
    (h : modelNormalize j = some r) :
    ∃ s, jsGet j "sentiment" = some (.str s) ∧
      r = { sentiment := normalizeSentiment s
            urgency := normUrgency j
            confidence := normConfidence j
            reasoning := jsGet j "reasoning" } := by
  unfold modelNormalize at h
  split at h
  · next s heq =>
      exact ⟨s, heq, (Option.some.injEq _ _ ▸ h).symm⟩
  · exact absurd h (by simp)

lemma modelNormalize_none {j : Json}
    (h : ∀ s, jsGet j "sentiment" ≠ some (.str s)) : modelNormalize j = none := by
  unfold modelNormalize
  split
  · next s heq => exact absurd heq (h s)
  · rfl

lemma analyzeFeedback_responds (content raw : String) :
    analyzeFeedback content (.responds raw) =
      match (extractJson raw).bind jsonParse with
      | none => fallbackAnalysis content
      | some j =>
        match modelNormalize j with
        | none => fallbackAnalysis content
        | some r => r := by
  show (match extractJson raw with
        | none => fallbackAnalysis content
        | some s =>
          match jsonParse s with
          | none => fallbackAnalysis content
          | some j =>
            match modelNormalize j with
            | none => fallbackAnalysis content
            | some r => r) = _
  cases extractJson raw with
  | none => rfl
  | some s => rfl

lemma analyzeFeedback_fallback_or_model (content : String) (o : ModelOutcome) :
    analyzeFeedback content o = fallbackAnalysis content ∨
    ∃ j, modelJson o = some j ∧
      modelNormalize j = some (analyzeFeedback content o) := by
  cases o with
  | throws => exact Or.inl rfl
  | responds raw =>
    rw [analyzeFeedback_responds]
    show _ ∨ ∃ j, (extractJson raw).bind jsonParse = some j ∧ _
    cases hpipe : (extractJson raw).bind jsonParse with
    | none => exact Or.inl rfl
    | some j =>
      dsimp only
      cases hnorm : modelNormalize j with
      | none => exact Or.inl rfl
      | some r => exact Or.inr ⟨j, rfl, hnorm⟩

/-- C10: the fallback heuristic's urgency chain can produce 1, 3, 4 or 5
but never 2: values are 5 (urgent word), 4 (more than two negative
words), 3 (one or two negative words, or the default), 1 (only positive
words). -/
theorem c10_fallback_urgency_never_two (content : String) :
    (fallbackAnalysis content).urgency ≠ 2 ∧
    ((fallbackAnalysis content).urgency = 1 ∨ (fallbackAnalysis content).urgency = 3 ∨
     (fallbackAnalysis content).urgency = 4 ∨ (fallbackAnalysis content).urgency = 5) := by
  have h := fallbackAnalysis_urgency_cases content
  exact ⟨by omega, h⟩

/-- C4: on every path — model-backed or fallback — the returned
judgment's sentiment is one of the three `Sentiment` values and its
urgency is an integer with 1 ≤ urgency ≤ 5. -/
theorem c4_result_invariants (content : String) (o : ModelOutcome) :
    ((analyzeFeedback content o).sentiment = .positive ∨
     (analyzeFeedback content o).sentiment = .negative ∨
     (analyzeFeedback content o).sentiment = .neutral) ∧
    1 ≤ (analyzeFeedback content o).urgency ∧ (analyzeFeedback content o).urgency ≤ 5 := by
  refine ⟨?_, ?_⟩
  · cases h : (analyzeFeedback content o).sentiment
    · exact Or.inl rfl
    · exact Or.inr (Or.inl rfl)
    · exact Or.inr (Or.inr rfl)
  · rcases analyzeFeedback_fallback_or_model content o with h | ⟨j, _, hr⟩
    · rw [h]
      have := fallbackAnalysis_urgency_cases content
      omega
    · rcases modelNormalize_eq_some hr with ⟨s, _, hrec⟩
      have hb := normUrgency_bounds j
      rw [hrec]
      exact hb

/-- C3: `analyzeFeedback` never propagates a failure: a thrown model
call, and a response with no extractable or parseable JSON, all return
`fallbackAnalysis content`, whose confidence is 0.5 and whose reasoning
is the fixed literal marker string. -/
theorem c3_failure_paths_fallback (content raw : String) :
    analyzeFeedback content .throws = fallbackAnalysis content ∧
    ((extractJson raw).bind jsonParse = none →
      analyzeFeedback content (.responds raw) = fallbackAnalysis content) ∧
    (fallbackAnalysis content).confidence = mkRat 1 2 ∧
    (fallbackAnalysis content).reasoning = some (.str "Fallback rule-based analysis") := by
  refine ⟨rfl, ?_, rfl, rfl⟩
  intro h
  rw [analyzeFeedback_responds, h]

/-- Witness for C3 at a concrete failing response. -/
theorem c3_failure_paths_fallback_witness :
    (extractJson "no json here").bind jsonParse = none ∧
    analyzeFeedback "hello" (.responds "no json here") = fallbackAnalysis "hello" :=
  ⟨by rfl, (c3_failure_paths_fallback "hello" "no json here").2.1 (by rfl)⟩

/-- Modelled from the claim wording: the sentiment decision rule stated
by the spec (ties, including 0/0, resolve to neutral). -/
def specSentiment (content : String) : Sentiment :=
  if positiveCount content > negativeCount content then .positive
  else if negativeCount content > positiveCount content then .negative
  else .neutral

/-- Modelled from the claim wording: the urgency decision rule stated by
the spec (5 on any urgent match; 4 when negative-count > 2; 3 when
negative-count is 1 or 2; 1 when only positive words; default 3). -/
def specUrgency (content : String) : Int :=
  if urgentCount content > 0 then 5
  else if negativeCount content > 2 then 4
  else if negativeCount content = 1 ∨ negativeCount content = 2 then 3
  else if positiveCount content > 0 then 1
  else 3

/-- C8: the fallback heuristic computes exactly the spec's decision
rules over the three lexicon counts, with confidence 0.5 and the fixed
marker reasoning; in particular the two concrete examples of the spec. -/
theorem c8_fallback_heuristic (content : String) :
    fallbackAnalysis content =
      { sentiment := specSentiment content
        urgency := specUrgency content
        confidence := mkRat 1 2
        reasoning := some fallbackReasoning } ∧
    fallbackAnalysis "This is broken and needs urgent attention!" =
      ⟨.negative, 5, mkRat 1 2, some fallbackReasoning⟩ ∧
    fallbackAnalysis "The weather today." =
      ⟨.neutral, 3, mkRat 1 2, some fallbackReasoning⟩ := by
  refine ⟨?_, by rfl, by rfl⟩
  unfold fallbackAnalysis specSentiment specUrgency
  dsimp only
  simp only [AnalysisResult.mk.injEq, true_and, and_true]
  split_ifs <;> omega

/-- C9: fallback lexicon matching is case-insensitive substring
containment, counted at most once per lexicon word: each count is
bounded by its lexicon's size; "download" triggers the urgent word
"down" (urgency 5); upper-case "BUG BUG BUG" matches "bug" exactly once
(negative sentiment, urgency 3 — not the 4 that per-occurrence counting
would give). -/
theorem c9_substring_containment_matching (content : String) :
    (positiveCount content ≤ positiveWords.length ∧
     negativeCount content ≤ negativeWords.length ∧
     urgentCount content ≤ urgentWords.length) ∧
    containsSub (toLowerStr "Please restart the download") "down" = true ∧
    fallbackAnalysis "Please restart the download" =
      ⟨.neutral, 5, mkRat 1 2, some fallbackReasoning⟩ ∧
    negativeCount "BUG BUG BUG" = 1 ∧
    fallbackAnalysis "BUG BUG BUG" =
      ⟨.negative, 3, mkRat 1 2, some fallbackReasoning⟩ := by
  refine ⟨⟨?_, ?_, ?_⟩, by rfl, by rfl, by rfl, by rfl⟩ <;>
    exact List.length_filter_le _ _

/-- C1 counterexample: a parseable response whose numeric confidence is
2 is passed through unclamped, so the returned confidence lies outside
`[0, 1]`. -/
theorem c1_confidence_counterexample :
    (analyzeFeedback "x"
      (.responds "\x7b\"sentiment\":\"ok\",\"confidence\":2\x7d")).confidence = 2 ∧
    ¬ ((analyzeFeedback "x"
      (.responds "\x7b\"sentiment\":\"ok\",\"confidence\":2\x7d")).confidence ≤ 1) := by
  exact ⟨by rfl, by decide⟩

/-- C1 amended: confidence is 0.5 on the fallback path and 0.7 when the
model-path confidence field is missing, non-numeric or zero; otherwise
the parsed numeric value is passed through with no clamp into `[0, 1]`. -/
theorem c1_confidence_amended (content : String) (o : ModelOutcome) :
    (analyzeFeedback content o).confidence = mkRat 1 2 ∨
    (analyzeFeedback content o).confidence = mkRat 7 10 ∨
    ∃ j q, modelJson o = some j ∧
      jsParseFloat (jsGet j "confidence") = some q ∧ q ≠ 0 ∧
      (analyzeFeedback content o).confidence = q := by
  rcases analyzeFeedback_fallback_or_model content o with h | ⟨j, hj, hr⟩
  · left
    rw [h]
    rfl
  · rcases modelNormalize_eq_some hr with ⟨s, _, hrec⟩
    rw [hrec]
    dsimp only
    unfold normConfidence
    cases hc : jsParseFloat (jsGet j "confidence") with
    | none => right; left; rfl
    | some q =>
      by_cases hq : q = 0
      · right; left; simp [hq]
      · right; right; exact ⟨j, q, hj, hc, hq, by simp [hq]⟩

/-- C2 counterexample: a successfully parsed object with no sentiment
field does not yield a model-path judgment with neutral sentiment — the
`TypeError` in `normalizeSentiment` sends the whole classification to
the keyword fallback (here: positive sentiment, urgency 1, confidence
0.5, marker reasoning). -/
theorem c2_missing_sentiment_counterexample :
    modelJson (.responds "\x7b\"urgency\":4,\"confidence\":0.9\x7d") =
      some (.obj [("urgency", .num 4), ("confidence", .num (mkRat 9 10))]) ∧
    analyzeFeedback "great stuff" (.responds "\x7b\"urgency\":4,\"confidence\":0.9\x7d") =
      ⟨.positive, 1, mkRat 1 2, some fallbackReasoning⟩ ∧
    analyzeFeedback "great stuff" (.responds "\x7b\"urgency\":4,\"confidence\":0.9\x7d") =
      fallbackAnalysis "great stuff" :=
  ⟨by rfl, by rfl, by rfl⟩

/-- C2 amended: the model path survives (with per-field defaults) iff the
parsed object's sentiment field is a string; a missing or non-string
sentiment triggers the full keyword fallback, while missing urgency and
confidence are repaired per-field (defaults 3 and 0.7) without leaving
the model path. -/
theorem c2_per_field_repair_amended (content raw : String) (j : Json) :
    ((∃ s, jsGet j "sentiment" = some (.str s)) ↔ (modelNormalize j).isSome) ∧
    (modelJson (.responds raw) = some j →
      (∀ s, jsGet j "sentiment" ≠ some (.str s)) →
      analyzeFeedback content (.responds raw) = fallbackAnalysis content) ∧
    analyzeFeedback "x" (.responds "\x7b\"sentiment\":\"positive\"\x7d") =
      ⟨.positive, 3, mkRat 7 10, none⟩ := by
  refine ⟨⟨?_, ?_⟩, ?_, by rfl⟩
  · rintro ⟨s, hs⟩
    unfold modelNormalize
    rw [hs]
    rfl
  · intro h
    by_contra hno
    push_neg at hno
    rw [modelNormalize_none hno] at h
    exact Bool.noConfusion h
  · intro hm hnone
    have hm2 : (extractJson raw).bind jsonParse = some j := hm
    rw [analyzeFeedback_responds, hm2]
    dsimp only
    rw [modelNormalize_none hnone]

/-- Witness for C2 amended at a concrete sentiment-free response. -/
theorem c2_per_field_repair_amended_witness :
    modelJson (.responds "\x7b\"urgency\":2\x7d") = some (.obj [("urgency", .num 2)]) ∧
    analyzeFeedback "slow and bad" (.responds "\x7b\"urgency\":2\x7d") =
      fallbackAnalysis "slow and bad" :=
  ⟨by rfl,
    (c2_per_field_repair_amended "slow and bad" "\x7b\"urgency\":2\x7d"
      (.obj [("urgency", .num 2)])).2.1 (by rfl)
      (fun s h => Option.noConfusion h)⟩

lemma ratTrunc_intCast (v : Int) : ratTrunc (v : Rat) = v := by
  have hf : ∀ w : Int, ((w : Rat)).floor = w := fun w => by
    simp [Rat.floor, Rat.den_intCast, Rat.num_intCast]
  unfold ratTrunc
  split
  · rw [show -((v : Rat)) = ((-v : Int) : Rat) from by push_cast; ring, hf]
    omega
  · exact hf v

/-- C5 counterexample: an urgency field carrying the numeric value 0
yields urgency 3 (the falsy `|| 3` default), not the claimed clamp to 1. -/
theorem c5_urgency_zero_counterexample :
    (analyzeFeedback "x"
      (.responds "\x7b\"sentiment\":\"neutral\",\"urgency\":0\x7d")).urgency = 3 ∧
    (analyzeFeedback "x"
      (.responds "\x7b\"sentiment\":\"neutral\",\"urgency\":0\x7d")).urgency ≠ 1 :=
  ⟨by rfl, by decide⟩

/-- C5 amended: on the model path, an urgency field holding the integer
value v produces `min 5 (max 1 v)` — except v = 0, which `parseInt(...)
|| 3` treats as missing and defaults to 3 (so 0 yields 3, 99 yields 5);
the default 3 otherwise arises only when `parseInt` yields `NaN`. -/
theorem c5_urgency_amended (j : Json) (v : Int) (r : AnalysisResult)
    (hu : jsGet j "urgency" = some (.num (v : Rat)))
    (hr : modelNormalize j = some r) :
    r.urgency = if v = 0 then 3 else min 5 (max 1 v) := by
  rcases modelNormalize_eq_some hr with ⟨s, _, hrec⟩
  rw [hrec]
  dsimp only
  unfold normUrgency
  rw [hu]
  dsimp only [jsParseInt]
  rw [ratTrunc_intCast]
  by_cases hv : v = 0
  · simp only [hv]
    decide
  · simp [hv]

/-- Witness for C5 amended: urgency 99 clamps to 5. -/
theorem c5_urgency_amended_witness :
    jsGet (.obj [("sentiment", .str "a"), ("urgency", .num ((99 : Int) : Rat))])
        "urgency" = some (.num ((99 : Int) : Rat)) ∧
    modelNormalize (.obj [("sentiment", .str "a"), ("urgency", .num ((99 : Int) : Rat))]) =
      some ⟨.neutral, 5, mkRat 7 10, none⟩ ∧
    (⟨.neutral, 5, mkRat 7 10, none⟩ : AnalysisResult).urgency =
      if (99 : Int) = 0 then 3 else min 5 (max 1 99) :=
  ⟨by rfl, by rfl,
    c5_urgency_amended (.obj [("sentiment", .str "a"), ("urgency", .num ((99 : Int) : Rat))])
      99 ⟨.neutral, 5, mkRat 7 10, none⟩ (by rfl) (by rfl)⟩

lemma upToLastClose_of_not_mem {w : List Char} (h : '}' ∉ w) :
    upToLastClose w = none := by
  induction w with
  | nil => rfl
  | cons c t ih =>
    rw [List.mem_cons, not_or] at h
    unfold upToLastClose
    rw [ih h.2, if_neg (fun hc => h.1 hc.symm)]

lemma afterFirstBrace_append (rest : List Char) {u : List Char} (h : '{' ∉ u) :
    afterFirstBrace (u ++ '{' :: rest) = some rest := by
  induction u with
  | nil => simp [afterFirstBrace]
  | cons c t ih =>
    rw [List.mem_cons, not_or] at h
    show (if c = '{' then some (t ++ '{' :: rest)
          else afterFirstBrace (t ++ '{' :: rest)) = some rest
    rw [if_neg (fun hc => h.1 hc.symm), ih h.2]

lemma upToLastClose_append (v : List Char) {w : List Char} (h : '}' ∉ w) :
    upToLastClose (v ++ '}' :: w) = some (v ++ ['}']) := by
  induction v with
  | nil =>
    rw [List.nil_append]
    unfold upToLastClose
    rw [upToLastClose_of_not_mem h]
    simp
  | cons c t ih =>
    rw [List.cons_append]
    unfold upToLastClose
    rw [ih]
    rfl

/-- C6 counterexample: a response consisting of one valid JSON object
followed by prose containing a further closing brace is NOT classified
via the model path — the extracted substring spans to the last `}`, is
unparseable, and the classification falls back. -/
theorem c6_first_object_counterexample :
    extractJson
        "\x7b\"sentiment\":\"positive\",\"urgency\":1,\"confidence\":0.9\x7d nice \x7d" =
      some "\x7b\"sentiment\":\"positive\",\"urgency\":1,\"confidence\":0.9\x7d nice \x7d" ∧
    jsonParse
        "\x7b\"sentiment\":\"positive\",\"urgency\":1,\"confidence\":0.9\x7d nice \x7d" =
      none ∧
    analyzeFeedback "meh"
        (.responds
          "\x7b\"sentiment\":\"positive\",\"urgency\":1,\"confidence\":0.9\x7d nice \x7d") =
      fallbackAnalysis "meh" :=
  ⟨by rfl, by rfl, by rfl⟩

/-- C6 amended: the regex `\{[\s\S]*\}` is greedy — the brace match runs
from the first `{` of the fence-stripped text to its LAST `}`, not to
the first object's closing brace. -/
theorem c6_greedy_brace_extraction (u v w : List Char)
    (hu : '{' ∉ u) (hw : '}' ∉ w) :
    braceExtract (u ++ '{' :: (v ++ '}' :: w)) = some ('{' :: (v ++ ['}'])) := by
  unfold braceExtract
  rw [afterFirstBrace_append _ hu]
  show (upToLastClose (v ++ '}' :: w)).map _ = _
  rw [upToLastClose_append v hw]
  rfl

/-- Witness for C6's general greedy characterization at concrete text. -/
theorem c6_greedy_brace_extraction_witness :
    '{' ∉ ['a'] ∧ '}' ∉ ['b'] ∧
    braceExtract (['a'] ++ '{' :: (['1'] ++ '}' :: ['b'])) =
      some ('{' :: (['1'] ++ ['}'])) :=
  ⟨by decide, by decide,
    c6_greedy_brace_extraction ['a'] ['1'] ['b'] (by decide) (by decide)⟩

lemma mapSet_of_not_mem {m : List (Int × AnalysisResult)} {k : Int}
    (v : AnalysisResult) (h : k ∉ m.map Prod.fst) :
    mapSet m k v = m ++ [(k, v)] := by
  unfold mapSet
  rw [if_neg]
  simp only [List.any_eq_true, beq_iff_eq, not_exists]
  rintro p ⟨hp, hpk⟩
  exact h (List.mem_map.mpr ⟨p, hp, hpk⟩)

lemma batchLoop_cons (oracle : Nat → ModelOutcome) (total i : Nat)
    (hd : Int × String) (tl : List (Int × String))
    (acc : List (Int × AnalysisResult)) :
    batchLoop oracle total i (hd :: tl) acc =
      ((batchLoop oracle total (i + 1) tl
          (mapSet acc hd.1 (analyzeFeedback hd.2 (oracle i)))).1,
       (i + 1, total) ::
        (batchLoop oracle total (i + 1) tl
          (mapSet acc hd.1 (analyzeFeedback hd.2 (oracle i)))).2) := by
  show (match batchLoop oracle total (i + 1) tl
          (mapSet acc hd.1 (analyzeFeedback hd.2 (oracle i))) with
        | (m, ps) => (m, (i + 1, total) :: ps)) = _
  cases batchLoop oracle total (i + 1) tl
    (mapSet acc hd.1 (analyzeFeedback hd.2 (oracle i)))
  rfl

lemma batchLoop_spec (oracle : Nat → ModelOutcome) (total : Nat) :
    ∀ (rest : List (Int × String)) (i : Nat) (acc : List (Int × AnalysisResult)),
      (rest.map Prod.fst).Nodup →
      (∀ k ∈ rest.map Prod.fst, k ∉ acc.map Prod.fst) →
      (batchLoop oracle total i rest acc).1.map Prod.fst =
        acc.map Prod.fst ++ rest.map Prod.fst ∧
      (batchLoop oracle total i rest acc).2 =
        (List.range rest.length).map (fun k => (i + k + 1, total)) := by
  intro rest
  induction rest with
  | nil => intro i acc _ _; exact ⟨by simp [batchLoop], by simp [batchLoop]⟩
  | cons hd tl ih =>
    intro i acc hnodup hdisj
    have hhd : hd.1 ∉ acc.map Prod.fst := hdisj hd.1 (by simp)
    have hmset := mapSet_of_not_mem (analyzeFeedback hd.2 (oracle i)) hhd
    have htlnodup : (tl.map Prod.fst).Nodup := by
      rw [List.map_cons, List.nodup_cons] at hnodup
      exact hnodup.2
    have hhdtl : hd.1 ∉ tl.map Prod.fst := by
      rw [List.map_cons, List.nodup_cons] at hnodup
      exact hnodup.1
    have hdisj2 : ∀ k ∈ tl.map Prod.fst,
        k ∉ (mapSet acc hd.1 (analyzeFeedback hd.2 (oracle i))).map Prod.fst := by
      intro k hk
      rw [hmset, List.map_append, List.mem_append]
      rintro (hin | hin)
      · exact hdisj k (by simp [hk]) hin
      · simp only [List.map_cons, List.map_nil, List.mem_singleton] at hin
        exact hhdtl (hin ▸ hk)
    have hrec := ih (i + 1) (mapSet acc hd.1 (analyzeFeedback hd.2 (oracle i)))
      htlnodup hdisj2
    rw [batchLoop_cons]
    constructor
    · show (batchLoop oracle total (i + 1) tl
          (mapSet acc hd.1 (analyzeFeedback hd.2 (oracle i)))).1.map Prod.fst = _
      rw [hrec.1, hmset]
      simp
    · show (i + 1, total) :: (batchLoop oracle total (i + 1) tl
          (mapSet acc hd.1 (analyzeFeedback hd.2 (oracle i)))).2 = _
      rw [hrec.2, List.length_cons, List.range_succ_eq_map, List.map_cons,
        List.map_map]
      refine congrArg₂ _ (by simp) (List.map_congr_left ?_)
      intro k _
      simp only [Function.comp_apply, Prod.mk.injEq, and_true]
      omega

/-- C7: over distinct identifiers, the batch runner returns one map
entry per input item in input order, and invokes the progress callback
exactly N times — the i-th item (0-based) is classified with the i-th
model call and is followed by `onProgress(i + 1, N)`, so the first
arguments are 1, 2, ..., N and the second is always N. -/
theorem c7_batch_sequential (items : List (Int × String))
    (oracle : Nat → ModelOutcome) (h : (items.map Prod.fst).Nodup) :
    (batchAnalyzeFeedback items oracle).1.map Prod.fst = items.map Prod.fst ∧
    (batchAnalyzeFeedback items oracle).1.length = items.length ∧
    (batchAnalyzeFeedback items oracle).2 =
      (List.range items.length).map (fun k => (k + 1, items.length)) := by
  have hs := batchLoop_spec oracle items.length items 0 [] h (by simp)
  have h1 : (batchAnalyzeFeedback items oracle).1.map Prod.fst =
      items.map Prod.fst := by
    have := hs.1
    simpa [batchAnalyzeFeedback] using this
  refine ⟨h1, ?_, ?_⟩
  · have := congrArg List.length h1
    simpa using this
  · have := hs.2
    simpa [batchAnalyzeFeedback] using this

/-- Witness for C7 on a concrete two-item batch. -/
theorem c7_batch_sequential_witness :
    (([(1, "great"), (2, "bug")] : List (Int × String)).map Prod.fst).Nodup ∧
    (batchAnalyzeFeedback [(1, "great"), (2, "bug")] (fun _ => .throws)).2 =
      (List.range 2).map (fun k => (k + 1, 2)) :=
  ⟨by decide,
    (c7_batch_sequential [(1, "great"), (2, "bug")] (fun _ => .throws)
      (by decide)).2.2⟩

end Analyzer
